import Mathlib

/-!
Verification of the media_hub daemon layer against its design specification.

The development shallowly embeds the HTTP transfer service
(src/daemon/services/http.js: request validation, the metadata and
file/directory content handlers, start/stop) and the owning process's
server-recreation logic (src/app/main.js: createServer, the config-update
handler).  Store and filesystem access is modelled by explicit function
parameters; every store or filesystem access a handler performs is recorded
in an effect trace so that frame and counting properties can be stated.
-/

namespace MediaHub

/-- One shared filesystem entry.  Modelled from the spec: the MetadataStore
that constructs entries is not part of the analysed sources; §3 of the spec
gives the fields (`kind` is called `type` in the code, compared against the
string "dir" by the file handler). -/
structure FileEntry where
  id : String
  path : String
  name : String
  type : String
  parentId : Option String
  downloadCount : Nat
deriving DecidableEq, Repr

/-- The slice of the MetadataStore interface the HTTP service uses:
`getPathFromId` resolves an id to a path, `getData` resolves a path to a
FileEntry, `hasFile` tests whether a path is shared.  A JS falsy result is
modelled as `none`. -/
structure MetaData where
  getPathFromId : String → Option String
  getData : String → Option FileEntry
  hasFile : String → Bool

/-- A store or filesystem access performed by a request handler.
`incrementDownload` is the only mutating operation; the others are reads. -/
inductive Effect where
  | getData (path : String)
  | readdir (path : String)
  | openRead (path : String)
  | incrementDownload (path : String)
deriving DecidableEq, Repr

/-- JSON values, enough to express the service's serialized responses. -/
inductive JVal where
  | str (s : String)
  | num (n : Nat)
  | nul
  | arr (elems : List JVal)
  | obj (fields : List (String × JVal))

/-- A response body: JSON text or a streamed file. -/
inductive Body where
  | json (v : JVal)
  | fileStream (path : String)

/-- The response the service writes for one request. -/
structure Response where
  statusCode : Nat
  statusMessage : Option String
  contentType : Option String
  body : Option Body

/-- An error thrown during handling: a 404 produced by validation, or an
unexpected internal error carrying its detail text together with the
response head already committed to the wire when the error was raised
(`none` when no `writeHead` had run yet; once `writeHead` has run, the
catch can no longer change what was sent). -/
inductive HErr where
  | notFound (msg : String)
  | internal (detail : String) (committed : Option Response)

/-- One entry of a directory listing, `\x7bname, id\x7d` in the JSON. -/
structure ChildItem where
  name : String
  id : String
deriving DecidableEq, Repr

/-- Splitting a character list on the separator, mirroring JS
`String.prototype.split("/")`: always returns at least one (possibly empty)
segment. -/
def splitChars : List Char → List (List Char)
  | [] => [[]]
  | c :: rest =>
    if c = '/' then [] :: splitChars rest
    else
      match splitChars rest with
      | [] => [[c]]
      | seg :: segs => (c :: seg) :: segs

/-- The URL-to-segments computation of `validateRequest`
(http.js lines 163-167): drop the first character, drop one trailing
separator if present, split on the separator.  Computed on the character
list of the URL. -/
def parsePath (url : String) : List String :=
  let cs := url.toList.drop 1
  let cs := if cs.getLast? = some '/' then cs.dropLast else cs
  (splitChars cs).map (fun l => String.mk l)

/-- The checks of `validateRequest` (http.js lines 169-183) on the segment
list: a `some msg` is the message of the thrown 404 error, `none` means the
request is accepted. -/
def validateRequest (md : MetaData) (segs : List String) : Option String :=
  if segs.length > 2 ∨ (segs.length = 2 ∧ segs.getD 1 "" ≠ "meta") then
    some "Invalid URL"
  else if (md.getPathFromId (segs.headD "")).isSome then
    none
  else
    some "Resource not found"

/-- Node's `Path.join(path, child)` for a simple child name. -/
def pathJoin (path child : String) : String :=
  path ++ "/" ++ child

/-- JSON fields of a FileEntry in serialization order (the spread copy in
`metaDataRequestHandler` preserves the entry's own fields). -/
def entryFields (e : FileEntry) : List (String × JVal) :=
  [("id", .str e.id), ("path", .str e.path), ("name", .str e.name),
   ("type", .str e.type),
   ("parentId", match e.parentId with | some p => .str p | none => .nul),
   ("downloadCount", .num e.downloadCount)]

/-- `metaDataRequestHandler` (http.js lines 95-111): look the entry up,
copy it, delete the `path` field, serve the result as JSON.  A missing entry
spreads to an empty object.  Returns the outcome and the access trace. -/
def metaDataRequestHandler (md : MetaData) (segs : List String) :
    Except HErr Response × List Effect :=
  match md.getPathFromId (segs.headD "") with
  | none =>
    (.ok { statusCode := 200, statusMessage := none,
           contentType := some "application/json",
           body := some (.json (.obj [])) }, [])
  | some p =>
    let fields :=
      match md.getData p with
      | none => []
      | some e => (entryFields e).filter (fun kv => kv.1 ≠ "path")
    (.ok { statusCode := 200, statusMessage := none,
           contentType := some "application/json",
           body := some (.json (.obj fields)) }, [Effect.getData p])

/-- The `forEach` loop of the directory branch (http.js lines 126-132):
keep the children that `hasFile`, read each kept child's entry and record
its name and id.  A kept child with no entry raises (reading a property of
`undefined`), modelled as an error.  Also returns the access trace up to
the point reached. -/
def buildListing (md : MetaData) : List String → Except Unit (List ChildItem) × List Effect
  | [] => (.ok [], [])
  | c :: rest =>
    if md.hasFile c then
      match md.getData c with
      | none => (.error (), [Effect.getData c])
      | some d =>
        let r := buildListing md rest
        (r.1.map (fun l => ⟨d.name, d.id⟩ :: l), Effect.getData c :: r.2)
    else buildListing md rest

/-- JSON form of one listing entry. -/
def ChildItem.toJVal (item : ChildItem) : JVal :=
  .obj [("name", .str item.name), ("id", .str item.id)]

/-- `fileRequestHandler` (http.js lines 114-155): read the entry; for a
directory, enumerate its filesystem children, keep the shared ones and
serve the listing as JSON; for a file, write the 200 octet-stream head,
create the read stream, and increment the download counter.  `fs` models
`readdir` (`none` is a rejected read), `canOpen` models whether
`Fs.createReadStream` succeeds.  In the file branch `writeHead` runs before
`createReadStream` (lines 149-152), so a throw there carries the already
committed 200 octet-stream head.  Returns the outcome and the access
trace. -/
def fileRequestHandler (md : MetaData) (fs : String → Option (List String))
    (canOpen : String → Bool) (segs : List String) :
    Except HErr Response × List Effect :=
  match md.getPathFromId (segs.headD "") with
  | none =>
    (.error (.internal "TypeError: Cannot read property of undefined" none), [])
  | some p =>
    match md.getData p with
    | none =>
      (.error (.internal "TypeError: Cannot read property of undefined" none),
       [Effect.getData p])
    | some data =>
      if data.type = "dir" then
        match fs data.path with
        | none =>
          (.error (.internal "Error: readdir failed" none),
           [Effect.getData p, Effect.readdir data.path])
        | some names =>
          let children := names.map (fun child => pathJoin data.path child)
          let r := buildListing md children
          match r.1 with
          | .error _ =>
            (.error (.internal "TypeError: Cannot read property of undefined" none),
             [Effect.getData p, Effect.readdir data.path] ++ r.2)
          | .ok listing =>
            (.ok { statusCode := 200, statusMessage := none,
                   contentType := some "application/json",
                   body := some (.json (.obj
                     [("id", .str (segs.headD "")),
                      ("children", .arr (listing.map ChildItem.toJVal))])) },
             [Effect.getData p, Effect.readdir data.path] ++ r.2)
      else
        if canOpen data.path then
          (.ok { statusCode := 200, statusMessage := none,
                 contentType := some "application/octet-stream",
                 body := some (.fileStream data.path) },
           [Effect.getData p, Effect.openRead data.path,
            Effect.incrementDownload data.path])
        else
          (.error (.internal "Error: createReadStream failed"
             (some { statusCode := 200, statusMessage := none,
                     contentType := some "application/octet-stream",
                     body := none })),
           [Effect.getData p, Effect.openRead data.path])

/-- The dispatch of `rootHandler` (http.js lines 75-80): two segments go to
the metadata handler, otherwise the file handler runs. -/
def handleDispatch (md : MetaData) (fs : String → Option (List String))
    (canOpen : String → Bool) (segs : List String) :
    Except HErr Response × List Effect :=
  if segs.length = 2 then metaDataRequestHandler md segs
  else fileRequestHandler md fs canOpen segs

/-- The full result of handling one request: the response written, the
store/filesystem accesses performed, and the log lines emitted. -/
structure HandlerOut where
  response : Response
  effects : List Effect
  logs : List String

/-- `rootHandler` (http.js lines 63-92): validate, dispatch, and catch —
an error with code 404 becomes a 404 response carrying the error text as
status message; any other error is logged in full and answered with a bare
500 when no response head was committed yet.  When the handler had already
run `writeHead` before throwing, the catch's `res.statusCode = 500` can no
longer change what was sent: the committed head, ended without a body, is
the wire response. -/
def rootHandler (md : MetaData) (fs : String → Option (List String))
    (canOpen : String → Bool) (url : String) : HandlerOut :=
  let requestLog := "HTTPService: Request at " ++ url
  let segs := parsePath url
  match validateRequest md segs with
  | some msg =>
    { response := { statusCode := 404, statusMessage := some ("Error: " ++ msg),
                    contentType := none, body := none },
      effects := [], logs := [requestLog] }
  | none =>
    let r := handleDispatch md fs canOpen segs
    match r.1 with
    | .ok resp => { response := resp, effects := r.2, logs := [requestLog] }
    | .error (.notFound msg) =>
      { response := { statusCode := 404, statusMessage := some ("Error: " ++ msg),
                      contentType := none, body := none },
        effects := r.2, logs := [requestLog] }
    | .error (.internal detail committed) =>
      { response :=
          match committed with
          | some sent => sent
          | none => { statusCode := 500, statusMessage := none,
                      contentType := none, body := none },
        effects := r.2,
        logs := [requestLog, "HTTPService: " ++ detail] }

/-- The state an `HTTPService` constructor call produces: the stored
arguments and a server object that is created but not yet listening
(http.js lines 23-26; `listen` only runs in `start`). -/
structure HTTPServiceState where
  metaData : MetaData
  port : Nat
  listening : Bool

/-- The `HTTPService` constructor (http.js lines 13-48): a falsy `metaData`
or a falsy `port` (absent, or the number 0) throws an Error; otherwise the
service object is created with the server not listening. -/
def HTTPService.construct (metaData : Option MetaData) (port : Option Nat) :
    Except String HTTPServiceState :=
  match metaData with
  | none => .error "MetaData object not passed to HTTPService."
  | some md =>
    match port with
    | none => .error "Port not passed to HTTPService."
    | some p =>
      if p = 0 then .error "Port not passed to HTTPService."
      else .ok { metaData := md, port := p, listening := false }

/-- What a call to `HTTPService.start` produces.  `threw` is an exception
surfaced from the call itself (`start` has no return value and no error
callback, so any propagation would have to be a throw). -/
structure StartOutcome where
  threw : Option String
  logs : List String
  listening : Bool
deriving DecidableEq, Repr

/-- `HTTPService.start` (http.js lines 51-54) together with the listener's
event handlers registered in the constructor (lines 27-47): `listen` either
succeeds (the "listening" handler logs) or emits an "error" event, which
the registered handler only logs — under the label "UDPService" — so the
call itself never surfaces an error.  `bindFails` models whether binding
the port fails (e.g. the port is already in use). -/
def HTTPService.start (port : Nat) (bindFails : Bool) : StartOutcome :=
  if bindFails then
    { threw := none,
      logs := ["HTTPService: Start function called",
               "UDPService: Error: listen EADDRINUSE: address already in use"],
      listening := false }
  else
    { threw := none,
      logs := ["HTTPService: Start function called",
               "HTTPService: listening on port " ++ toString port],
      listening := true }

/-- A completion signal (a promise) with the time it settles and whether it
resolves or rejects. -/
structure StopSignal where
  time : Nat
  ok : Bool
deriving DecidableEq, Repr

/-- What a call to `HTTPService.stop` produces. -/
structure StopOutcome where
  closeRequested : Bool
  completionSignal : Option StopSignal
  logs : List String

/-- `HTTPService.stop` (http.js lines 57-60): it logs, asks the listener to
close (without a callback), and returns `undefined` — no completion signal
is handed back to the caller. -/
def HTTPService.stop (_st : HTTPServiceState) : StopOutcome :=
  { closeRequested := true, completionSignal := none,
    logs := ["HTTPService: Stop function called"] }

/-- The settle time `Promise.all` assigns to one element of the collection
returned by `Server.stop`: a non-promise element (such as the `undefined`
returned by `HTTPService.stop`) counts as already settled at time 0; a
genuine signal settles at its own time. -/
def settleTime : Option StopSignal → Nat
  | none => 0
  | some s => s.time

/-- Whether an element of the stop collection resolves (a missing signal is
treated by `Promise.all` as resolved). -/
def elemOk : Option StopSignal → Bool
  | none => true
  | some s => s.ok

/-- The earliest settle time among the rejecting elements. -/
def minRejectTime : List (Option StopSignal) → Nat
  | [] => 0
  | s :: rest =>
    if elemOk s then minRejectTime rest
    else
      if rest.all elemOk then settleTime s
      else Nat.min (settleTime s) (minRejectTime rest)

/-- When `Promise.all` over the stop collection settles: if every element
resolves, at the latest settle time; otherwise at the earliest
rejection. -/
def promiseAllSettleTime (sigs : List (Option StopSignal)) : Nat :=
  if sigs.all elemOk then (sigs.map settleTime).foldl Nat.max 0
  else minRejectTime sigs

/-- Modelled from the spec: `Server.stop` "requests both services to stop
concurrently and returns a collection of their completion signals" — the
Server class itself is not among the analysed sources.  The discovery
service's signal is abstract; the HTTP service contributes exactly what
`HTTPService.stop` returns, namely no signal. -/
def serverStopSignals (udpSignal : Option StopSignal)
    (httpState : HTTPServiceState) : List (Option StopSignal) :=
  [udpSignal, (HTTPService.stop httpState).completionSignal]

/-- The instant at which the old server is actually fully stopped: both
listeners have finished closing.  The actual close instants are
environmental (for the HTTP listener only the server's "close" event
observes it, and `HTTPService.stop` does not expose that event). -/
def oldServerFullyStoppedAt (udpCloseTime httpCloseTime : Nat) : Nat :=
  Nat.max udpCloseTime httpCloseTime

/-- The observable outcome of one `createServer` call. -/
structure CreateServerRun where
  constructTime : Nat
  startTime : Nat
  stopErrorLogged : Bool
deriving DecidableEq, Repr

/-- `createServer` (main.js lines 155-175): collect the old server's stop
signals (an empty collection when no server exists), await `Promise.all`
over them — a rejection is logged by the interposed `catch` and recovered —
and in the following `then` construct the new Server and start it. -/
def createServer (oldStopSignals : List (Option StopSignal)) : CreateServerRun :=
  let settle := promiseAllSettleTime oldStopSignals
  { constructTime := settle, startTime := settle,
    stopErrorLogged := !(oldStopSignals.all elemOk) }

/-! ## Derived notions used to state the claims -/

/-- The request shapes the specification declares valid: exactly one
segment, or exactly two segments where the second is literally "meta". -/
def validShape (segs : List String) : Prop :=
  segs.length = 1 ∨ (segs.length = 2 ∧ segs.getD 1 "" = "meta")

instance (segs : List String) : Decidable (validShape segs) := by
  unfold validShape
  infer_instance

/-- Number of `incrementDownload` calls in an access trace. -/
def countIncrements : List Effect → Nat
  | [] => 0
  | .incrementDownload _ :: rest => 1 + countIncrements rest
  | _ :: rest => countIncrements rest

/-- Increment the download counter of one path. -/
def bump (counts : String → Nat) (p : String) : String → Nat :=
  fun q => if q = p then counts p + 1 else counts q

/-- The download counters after an access trace runs against the store:
reads leave them unchanged, `incrementDownload` bumps one counter. -/
def applyEffects (counts : String → Nat) : List Effect → (String → Nat)
  | [] => counts
  | .incrementDownload p :: rest => applyEffects (bump counts p) rest
  | _ :: rest => applyEffects counts rest

/-- The path of the file a request serves as content, when it does: the
request passes validation, is a single-segment content request, resolves to
a file entry, and the read stream can be created. -/
def servedFilePath (md : MetaData) (canOpen : String → Bool) (url : String) :
    Option String :=
  let segs := parsePath url
  match validateRequest md segs with
  | some _ => none
  | none =>
    if segs.length = 2 then none
    else
      match md.getPathFromId (segs.headD "") with
      | none => none
      | some p =>
        match md.getData p with
        | none => none
        | some e =>
          if e.type = "dir" then none
          else if canOpen e.path then some e.path else none

/-- Whether a request is a completed file-content fetch. -/
def isCompletedFileFetch (md : MetaData) (canOpen : String → Bool)
    (url : String) : Bool :=
  (servedFilePath md canOpen url).isSome

/-- Whether a request is a content request that resolves to a directory. -/
def isDirContentRequest (md : MetaData) (url : String) : Bool :=
  let segs := parsePath url
  segs.length != 2 &&
    (match (md.getPathFromId (segs.headD "")).bind md.getData with
     | some e => e.type == "dir"
     | none => false)

/-- The detail of the unexpected internal error a request's handling
raises, if it raises one. -/
def internalErrorDetail (md : MetaData) (fs : String → Option (List String))
    (canOpen : String → Bool) (url : String) : Option String :=
  let segs := parsePath url
  match validateRequest md segs with
  | some _ => none
  | none =>
    match (handleDispatch md fs canOpen segs).1 with
    | .error (.internal d _) => some d
    | _ => none

/-- Whether handling commits response headers before its internal error is
raised: only the file branch writes its 200 octet-stream head before
`createReadStream` can throw; every other internal error precedes any
`writeHead`. -/
def headersCommittedBeforeError (md : MetaData) (canOpen : String → Bool)
    (url : String) : Bool :=
  let segs := parsePath url
  match validateRequest md segs with
  | some _ => false
  | none =>
    if segs.length = 2 then false
    else
      match md.getPathFromId (segs.headD "") with
      | none => false
      | some p =>
        match md.getData p with
        | none => false
        | some e =>
          if e.type = "dir" then false
          else !canOpen e.path

/-- JSON form of the store entry at a child path, as the directory listing
serves it. -/
def childEntryJson (md : MetaData) (c : String) : JVal :=
  match md.getData c with
  | some d => .obj [("name", .str d.name), ("id", .str d.id)]
  | none => .nul

/-! ## Concrete fixtures used by witnesses and counterexamples -/

/-- A shared file entry. -/
def fileEntryEx : FileEntry :=
  { id := "abc", path := "/shared/f.txt", name := "f.txt", type := "file",
    parentId := some "dir1", downloadCount := 3 }

/-- A shared directory entry. -/
def dirEntryEx : FileEntry :=
  { id := "dir1", path := "/shared/d", name := "d", type := "dir",
    parentId := none, downloadCount := 0 }

/-- A shared child of the directory. -/
def childEntryEx : FileEntry :=
  { id := "ch1", path := "/shared/d/a.txt", name := "a.txt", type := "file",
    parentId := some "dir1", downloadCount := 0 }

/-- A small consistent store: one directory with one shared child and one
separate shared file. -/
def mdEx : MetaData :=
  { getPathFromId := fun id =>
      if id = "abc" then some "/shared/f.txt"
      else if id = "dir1" then some "/shared/d"
      else if id = "ch1" then some "/shared/d/a.txt"
      else none,
    getData := fun p =>
      if p = "/shared/f.txt" then some fileEntryEx
      else if p = "/shared/d" then some dirEntryEx
      else if p = "/shared/d/a.txt" then some childEntryEx
      else none,
    hasFile := fun p =>
      p = "/shared/f.txt" || p = "/shared/d" || p = "/shared/d/a.txt" }

/-- The directory has two filesystem children, of which only `a.txt` is
shared. -/
def fsEx : String → Option (List String) :=
  fun p => if p = "/shared/d" then some ["a.txt", "b.txt"] else some []

/-- Read streams always open in the fixture. -/
def canOpenEx : String → Bool := fun _ => true

/-- Read streams never open: `Fs.createReadStream` throws at initiation. -/
def canOpenNever : String → Bool := fun _ => false

/-- An inconsistent store: the id resolves to a path with no entry, so the
file handler dereferences an absent value. -/
def mdBad : MetaData :=
  { getPathFromId := fun id => if id = "x" then some "/p" else none,
    getData := fun _ => none,
    hasFile := fun _ => false }

/-! ## Helper lemmas -/

theorem splitChars_ne_nil (cs : List Char) : splitChars cs ≠ [] := by
  induction cs with
  | nil => simp [splitChars]
  | cons c rest ih =>
    unfold splitChars
    by_cases hc : c = '/'
    · simp [hc]
    · simp only [if_neg hc]
      cases h : splitChars rest with
      | nil => simp
      | cons seg segs => simp

theorem parsePath_ne_nil (url : String) : parsePath url ≠ [] := by
  unfold parsePath
  intro h
  exact splitChars_ne_nil _ (List.map_eq_nil_iff.mp h)

theorem validateRequest_some (md : MetaData) (segs : List String)
    (hne : segs ≠ [])
    (h : ¬ validShape segs ∨ md.getPathFromId (segs.headD "") = none) :
    ∃ msg, validateRequest md segs = some msg := by
  unfold validateRequest
  by_cases hc : segs.length > 2 ∨ (segs.length = 2 ∧ segs.getD 1 "" ≠ "meta")
  · exact ⟨"Invalid URL", by rw [if_pos hc]⟩
  · rw [if_neg hc]
    have hvs : validShape segs := by
      push_neg at hc
      obtain ⟨h2, hmeta⟩ := hc
      have hlen : 0 < segs.length := List.length_pos.mpr hne
      unfold validShape
      rcases Nat.lt_or_ge segs.length 2 with hl | hl
      · exact Or.inl (by omega)
      · exact Or.inr ⟨by omega, hmeta (by omega)⟩
    rcases h with h | h
    · exact absurd hvs h
    · rw [h]
      exact ⟨"Resource not found", rfl⟩

theorem init_le_foldl_max (l : List Nat) (init : Nat) :
    init ≤ l.foldl Nat.max init := by
  induction l generalizing init with
  | nil => exact le_refl _
  | cons b rest ih => exact le_trans (Nat.le_max_left init b) (ih _)

theorem le_foldl_max (l : List Nat) (init : Nat) (a : Nat) (ha : a ∈ l) :
    a ≤ l.foldl Nat.max init := by
  induction l generalizing init with
  | nil => cases ha
  | cons b rest ih =>
    rcases List.mem_cons.mp ha with rfl | hm
    · exact le_trans (Nat.le_max_right init a) (init_le_foldl_max rest _)
    · exact ih _ hm

theorem countIncrements_append (a b : List Effect) :
    countIncrements (a ++ b) = countIncrements a + countIncrements b := by
  induction a with
  | nil => simp [countIncrements]
  | cons e rest ih => cases e <;> simp [countIncrements, ih, Nat.add_assoc]

theorem applyEffects_append (counts : String → Nat) (a b : List Effect) :
    applyEffects counts (a ++ b) = applyEffects (applyEffects counts a) b := by
  induction a generalizing counts with
  | nil => rfl
  | cons e rest ih => cases e <;> simp [applyEffects, ih]

theorem countIncrements_buildListing (md : MetaData) (cs : List String) :
    countIncrements (buildListing md cs).2 = 0 := by
  induction cs with
  | nil => rfl
  | cons c rest ih =>
    unfold buildListing
    by_cases hc : md.hasFile c
    · simp only [if_pos hc]
      cases hd : md.getData c with
      | none => rfl
      | some d => simpa [countIncrements] using ih
    · simpa [if_neg hc] using ih

theorem applyEffects_buildListing (md : MetaData) (cs : List String)
    (counts : String → Nat) :
    applyEffects counts (buildListing md cs).2 = counts := by
  induction cs with
  | nil => rfl
  | cons c rest ih =>
    unfold buildListing
    by_cases hc : md.hasFile c
    · simp only [if_pos hc]
      cases hd : md.getData c with
      | none => rfl
      | some d => simpa [applyEffects] using ih
    · simpa [if_neg hc] using ih

theorem countIncrements_metaDataRequestHandler (md : MetaData)
    (segs : List String) :
    countIncrements (metaDataRequestHandler md segs).2 = 0 := by
  unfold metaDataRequestHandler
  cases hp : md.getPathFromId (segs.headD "") <;> rfl

theorem applyEffects_metaDataRequestHandler (md : MetaData)
    (segs : List String) (counts : String → Nat) :
    applyEffects counts (metaDataRequestHandler md segs).2 = counts := by
  unfold metaDataRequestHandler
  cases hp : md.getPathFromId (segs.headD "") <;> rfl

theorem countIncrements_fileRequestHandler (md : MetaData)
    (fs : String → Option (List String)) (canOpen : String → Bool)
    (segs : List String) :
    countIncrements (fileRequestHandler md fs canOpen segs).2 =
      match md.getPathFromId (segs.headD "") with
      | none => 0
      | some p =>
        match md.getData p with
        | none => 0
        | some e =>
          if e.type = "dir" then 0
          else if canOpen e.path then 1 else 0 := by
  unfold fileRequestHandler
  cases hp : md.getPathFromId (segs.headD "") with
  | none => rfl
  | some p =>
    cases hd : md.getData p with
    | none => simp [hd, countIncrements]
    | some e =>
      by_cases ht : e.type = "dir"
      · cases hf : fs e.path with
        | none => simp [hd, ht, hf, countIncrements]
        | some names =>
          cases hb : (buildListing md
              (names.map (fun child => pathJoin e.path child))).1 with
          | error u =>
            simp [hd, ht, hf, hb, countIncrements, countIncrements_append,
              countIncrements_buildListing]
          | ok listing =>
            simp [hd, ht, hf, hb, countIncrements, countIncrements_append,
              countIncrements_buildListing]
      · by_cases hopen : canOpen e.path
        · simp [hd, ht, hopen, countIncrements]
        · simp [hd, ht, hopen, countIncrements]

theorem applyEffects_fileRequestHandler (md : MetaData)
    (fs : String → Option (List String)) (canOpen : String → Bool)
    (segs : List String) (counts : String → Nat) :
    applyEffects counts (fileRequestHandler md fs canOpen segs).2 =
      match md.getPathFromId (segs.headD "") with
      | none => counts
      | some p =>
        match md.getData p with
        | none => counts
        | some e =>
          if e.type = "dir" then counts
          else if canOpen e.path then bump counts e.path else counts := by
  unfold fileRequestHandler
  cases hp : md.getPathFromId (segs.headD "") with
  | none => rfl
  | some p =>
    cases hd : md.getData p with
    | none => simp [hd, applyEffects]
    | some e =>
      by_cases ht : e.type = "dir"
      · cases hf : fs e.path with
        | none => simp [hd, ht, hf, applyEffects]
        | some names =>
          cases hb : (buildListing md
              (names.map (fun child => pathJoin e.path child))).1 with
          | error u =>
            simp [hd, ht, hf, hb, applyEffects, applyEffects_append,
              applyEffects_buildListing]
          | ok listing =>
            simp [hd, ht, hf, hb, applyEffects, applyEffects_append,
              applyEffects_buildListing]
      · by_cases hopen : canOpen e.path
        · simp [hd, ht, hopen, applyEffects]
        · simp [hd, ht, hopen, applyEffects]

/-- The access trace of a handled request: empty when validation rejects,
otherwise exactly what the dispatched handler performed — the catch in
`rootHandler` does not change it. -/
theorem rootHandler_effects (md : MetaData)
    (fs : String → Option (List String)) (canOpen : String → Bool)
    (url : String) :
    (rootHandler md fs canOpen url).effects =
      match validateRequest md (parsePath url) with
      | some _ => []
      | none => (handleDispatch md fs canOpen (parsePath url)).2 := by
  unfold rootHandler
  cases hv : validateRequest md (parsePath url) with
  | some msg => simp [hv]
  | none =>
    cases hr : (handleDispatch md fs canOpen (parsePath url)).1 with
    | ok resp => simp [hv, hr]
    | error e => cases e <;> simp [hv, hr]

/-- A constructed, listening service instance used as the old server in the
lifecycle fixtures. -/
def httpSvcEx : HTTPServiceState :=
  { metaData := mdEx, port := 4000, listening := true }

/-! ## Claims -/

/-- C1: for every HTTP GET request to the transfer service, if the request
path does not have a valid shape (exactly one segment, or exactly two
segments where the second is literally "meta"), or if the first segment
does not resolve to an existing entry via the metadata store, then the
response has status 404 and no handler accesses entry data (the access
trace is empty). -/
theorem c1_invalid_or_unresolvable_is_404 (md : MetaData)
    (fs : String → Option (List String)) (canOpen : String → Bool)
    (url : String)
    (h : ¬ validShape (parsePath url) ∨
         md.getPathFromId ((parsePath url).headD "") = none) :
    (rootHandler md fs canOpen url).response.statusCode = 404 ∧
    (rootHandler md fs canOpen url).effects = [] := by
  obtain ⟨msg, hmsg⟩ := validateRequest_some md (parsePath url)
    (parsePath_ne_nil url) h
  simp [rootHandler, hmsg]

/-- Witness for C1 at the malformed three-segment request `/a/b/c`. -/
theorem c1_witness :
    (rootHandler mdEx fsEx canOpenEx "/a/b/c").response.statusCode = 404 ∧
    (rootHandler mdEx fsEx canOpenEx "/a/b/c").effects = [] :=
  c1_invalid_or_unresolvable_is_404 mdEx fsEx canOpenEx "/a/b/c"
    (Or.inl (by decide))

/-- C10: constructing an HTTPService with a missing (falsy) metaData object
or a missing (falsy) port always throws an Error — so no service instance
is produced — and with both arguments present the construction succeeds
without starting the listener. -/
theorem c10_constructor_guards (mdo : Option MetaData) (porto : Option Nat) :
    ((mdo = none ∨ porto = none ∨ porto = some 0) →
       ∃ msg, HTTPService.construct mdo porto = .error msg) ∧
    (∀ md p, mdo = some md → porto = some p → p ≠ 0 →
       HTTPService.construct mdo porto =
         .ok { metaData := md, port := p, listening := false }) := by
  constructor
  · intro h
    cases mdo with
    | none => exact ⟨_, rfl⟩
    | some md =>
      cases porto with
      | none => exact ⟨_, rfl⟩
      | some p =>
        rcases h with h | h | h
        · exact absurd h (by simp)
        · exact absurd h (by simp)
        · obtain rfl : p = 0 := by simpa using h
          exact ⟨_, rfl⟩
  · rintro md p rfl rfl hp
    simp [HTTPService.construct, hp]

/-- Witness for C10: a missing store is rejected; a full argument list
yields a non-listening instance. -/
theorem c10_witness :
    (∃ msg, HTTPService.construct none (some 8080) = .error msg) ∧
    HTTPService.construct (some mdEx) (some 8080) =
      .ok { metaData := mdEx, port := 8080, listening := false } :=
  ⟨(c10_constructor_guards none (some 8080)).1 (Or.inl rfl),
   (c10_constructor_guards (some mdEx) (some 8080)).2 mdEx 8080 rfl rfl
     (by decide)⟩

/-- C5 (code defect evidence): when binding the listener fails at start
time, `start()` surfaces no error — the registered "error" event handler
only writes log lines (mislabeled "UDPService") and the service is left not
listening, so nothing propagates to the orchestrator. -/
theorem c5_bind_failure_not_surfaced :
    (HTTPService.start 8080 true).threw = none ∧
    (HTTPService.start 8080 true).listening = false ∧
    "UDPService: Error: listen EADDRINUSE: address already in use" ∈
      (HTTPService.start 8080 true).logs := by
  decide

/-- C8 (code defect evidence): `stop()` requests the close but hands back
no completion signal at all, so a caller cannot wait on shutdown through
its return value. -/
theorem c8_stop_returns_no_signal :
    (HTTPService.stop httpSvcEx).closeRequested = true ∧
    (HTTPService.stop httpSvcEx).completionSignal = none :=
  ⟨rfl, rfl⟩

/-- C6 counterexample: with an old server whose discovery stop signal
settles immediately and whose HTTP listener actually finishes closing at
time 7, the new Server is constructed at time 0 — before the old server is
fully stopped — because `HTTPService.stop` contributes no completion signal
to the awaited collection. -/
theorem c6_counterexample :
    ¬ (oldServerFullyStoppedAt 0 7 ≤
        (createServer (serverStopSignals (some ⟨0, true⟩) httpSvcEx)).constructTime) := by
  decide

/-- C6 (amended): `createServer` does await the settlement of the stop
collection — when every element resolves, the new Server is constructed and
started exactly when `Promise.all` settles, no earlier than any element's
settle time; but those settle times need not coincide with the services'
actual shutdown. -/
theorem c6_awaits_stop_signals (sigs : List (Option StopSignal))
    (h : sigs.all elemOk = true) :
    (createServer sigs).startTime = (createServer sigs).constructTime ∧
    ∀ s ∈ sigs, settleTime s ≤ (createServer sigs).constructTime := by
  refine ⟨rfl, ?_⟩
  intro s hs
  simp only [createServer, promiseAllSettleTime, h, if_pos]
  exact le_foldl_max _ 0 _ (List.mem_map_of_mem settleTime hs)

/-- Witness for C6's amended statement on a two-element collection. -/
theorem c6_witness :
    (createServer [some ⟨3, true⟩, none]).startTime =
      (createServer [some ⟨3, true⟩, none]).constructTime ∧
    ∀ s ∈ [some (⟨3, true⟩ : StopSignal), none],
      settleTime s ≤ (createServer [some ⟨3, true⟩, none]).constructTime :=
  c6_awaits_stop_signals [some ⟨3, true⟩, none] (by decide)

/-- C2: `incrementDownload` is called exactly once per completed file
fetch — a content request that resolves to a file entry and whose read
initiation succeeds — and only then; metadata requests (two segments) and
directory content requests never call it. -/
theorem c2_increment_discipline (md : MetaData)
    (fs : String → Option (List String)) (canOpen : String → Bool)
    (url : String) :
    (countIncrements (rootHandler md fs canOpen url).effects =
      if isCompletedFileFetch md canOpen url = true then 1 else 0) ∧
    ((parsePath url).length = 2 →
      countIncrements (rootHandler md fs canOpen url).effects = 0) ∧
    (isDirContentRequest md url = true →
      countIncrements (rootHandler md fs canOpen url).effects = 0) := by
  have hmain : countIncrements (rootHandler md fs canOpen url).effects =
      if isCompletedFileFetch md canOpen url = true then 1 else 0 := by
    rw [rootHandler_effects]
    unfold isCompletedFileFetch servedFilePath
    cases hv : validateRequest md (parsePath url) with
    | some msg => simp [hv, countIncrements]
    | none =>
      unfold handleDispatch
      by_cases hlen : (parsePath url).length = 2
      · simp [hv, hlen, countIncrements_metaDataRequestHandler]
      · simp only [if_neg hlen]
        rw [countIncrements_fileRequestHandler]
        cases hp : md.getPathFromId ((parsePath url).headD "") with
        | none => simp [hv, hlen, hp]
        | some p =>
          cases hd : md.getData p with
          | none => simp [hv, hlen, hp, hd]
          | some e =>
            by_cases ht : e.type = "dir"
            · simp [hv, hlen, hp, hd, ht]
            · by_cases hopen : canOpen e.path
              · simp [hv, hlen, hp, hd, ht, hopen]
              · simp [hv, hlen, hp, hd, ht, hopen]
  refine ⟨hmain, ?_, ?_⟩
  · intro hlen
    rw [hmain]
    unfold isCompletedFileFetch servedFilePath
    cases hv : validateRequest md (parsePath url) with
    | some _ => simp [hv]
    | none => simp [hv, hlen]
  · intro hdir
    rw [hmain]
    unfold isDirContentRequest at hdir
    rw [Bool.and_eq_true] at hdir
    obtain ⟨hlen, hmatch⟩ := hdir
    rw [bne_iff_ne] at hlen
    unfold isCompletedFileFetch servedFilePath
    cases hv : validateRequest md (parsePath url) with
    | some _ => simp [hv]
    | none =>
      cases hb : (md.getPathFromId ((parsePath url).headD "")).bind md.getData with
      | none => rw [hb] at hmatch; simp at hmatch
      | some e =>
        rw [hb] at hmatch
        have ht : e.type = "dir" := by simpa using hmatch
        obtain ⟨p, hp, hd⟩ := Option.bind_eq_some.mp hb
        rw [List.headD_eq_head?] at hp
        simp [hv, hlen, hp, hd, ht]

/-- Witness for C2: the metadata request and the directory request of the
fixture perform no increment; the file request performs exactly one. -/
theorem c2_witness :
    countIncrements (rootHandler mdEx fsEx canOpenEx "/abc/meta").effects = 0 ∧
    countIncrements (rootHandler mdEx fsEx canOpenEx "/dir1").effects = 0 ∧
    countIncrements (rootHandler mdEx fsEx canOpenEx "/abc").effects = 1 :=
  ⟨(c2_increment_discipline mdEx fsEx canOpenEx "/abc/meta").2.1 (by decide),
   (c2_increment_discipline mdEx fsEx canOpenEx "/dir1").2.2 (by decide),
   by rw [(c2_increment_discipline mdEx fsEx canOpenEx "/abc").1]; decide⟩

/-- C9: handling any request leaves the store's download counters unchanged
except for the single increment on the path of a completed file-content
fetch — no handler performs any other mutation of store entries (the only
mutating operation in any access trace is that one `incrementDownload`). -/
theorem c9_store_frame (md : MetaData) (fs : String → Option (List String))
    (canOpen : String → Bool) (url : String) (counts : String → Nat) :
    applyEffects counts (rootHandler md fs canOpen url).effects =
      match servedFilePath md canOpen url with
      | some p => bump counts p
      | none => counts := by
  rw [rootHandler_effects]
  unfold servedFilePath
  cases hv : validateRequest md (parsePath url) with
  | some msg => simp [hv, applyEffects]
  | none =>
    unfold handleDispatch
    by_cases hlen : (parsePath url).length = 2
    · simp [hv, hlen, applyEffects_metaDataRequestHandler]
    · simp only [if_neg hlen]
      rw [applyEffects_fileRequestHandler]
      cases hp : md.getPathFromId ((parsePath url).headD "") with
      | none => simp [hv, hlen, hp]
      | some p =>
        cases hd : md.getData p with
        | none => simp [hv, hlen, hp, hd]
        | some e =>
          by_cases ht : e.type = "dir"
          · simp [hv, hlen, hp, hd, ht]
          · by_cases hopen : canOpen e.path
            · simp [hv, hlen, hp, hd, ht, hopen]
            · simp [hv, hlen, hp, hd, ht, hopen]

/-- C3: for every resolvable id, the response to `GET /{id}/meta` is 200
with content type application/json, the body being the entry's FileEntry
fields serialized with the `path` field deleted — and the serialized object
never contains a `path` field. -/
theorem c3_meta_strips_path (md : MetaData)
    (fs : String → Option (List String)) (canOpen : String → Bool)
    (url idStr p : String) (e : FileEntry)
    (hsegs : parsePath url = [idStr, "meta"])
    (hp : md.getPathFromId idStr = some p)
    (he : md.getData p = some e) :
    (rootHandler md fs canOpen url).response.statusCode = 200 ∧
    (rootHandler md fs canOpen url).response.contentType =
      some "application/json" ∧
    (rootHandler md fs canOpen url).response.body =
      some (.json (.obj ((entryFields e).filter (fun kv => kv.1 ≠ "path")))) ∧
    ∀ kv ∈ (entryFields e).filter (fun kv => kv.1 ≠ "path"), kv.1 ≠ "path" := by
  have hval : validateRequest md [idStr, "meta"] = none := by
    simp [validateRequest, hp]
  refine ⟨?_, ?_, ?_, ?_⟩
  · simp [rootHandler, hsegs, hval, handleDispatch, metaDataRequestHandler,
      hp, he]
  · simp [rootHandler, hsegs, hval, handleDispatch, metaDataRequestHandler,
      hp, he]
  · simp [rootHandler, hsegs, hval, handleDispatch, metaDataRequestHandler,
      hp, he]
  · intro kv hkv
    simpa using List.of_mem_filter hkv

/-- Witness for C3 on the fixture's file entry. -/
theorem c3_witness :
    (rootHandler mdEx fsEx canOpenEx "/abc/meta").response.statusCode = 200 ∧
    (rootHandler mdEx fsEx canOpenEx "/abc/meta").response.contentType =
      some "application/json" ∧
    (rootHandler mdEx fsEx canOpenEx "/abc/meta").response.body =
      some (.json (.obj
        ((entryFields fileEntryEx).filter (fun kv => kv.1 ≠ "path")))) ∧
    ∀ kv ∈ (entryFields fileEntryEx).filter (fun kv => kv.1 ≠ "path"),
      kv.1 ≠ "path" :=
  c3_meta_strips_path mdEx fsEx canOpenEx "/abc/meta" "abc" "/shared/f.txt"
    fileEntryEx rfl rfl rfl

theorem buildListing_ok (md : MetaData) (cs : List String)
    (h : ∀ c ∈ cs, md.hasFile c = true → (md.getData c).isSome = true) :
    (buildListing md cs).1 =
      .ok ((cs.filter (fun c => md.hasFile c)).map
        (fun c =>
          match md.getData c with
          | some d => ChildItem.mk d.name d.id
          | none => ChildItem.mk "" "")) := by
  induction cs with
  | nil => rfl
  | cons c rest ih =>
    unfold buildListing
    have hrest : ∀ x ∈ rest, md.hasFile x = true → (md.getData x).isSome = true :=
      fun x hx => h x (List.mem_cons_of_mem _ hx)
    by_cases hc : md.hasFile c
    · cases hd : md.getData c with
      | none =>
        have hsome := h c (List.mem_cons_self c rest) hc
        rw [hd] at hsome
        simp at hsome
      | some d => simp [hc, hd, ih hrest, Except.map]
    · simp [hc, ih hrest]

/-- C4: for every resolvable id denoting a directory, the response to
`GET /{id}` is 200 JSON whose body is the requested id together with
exactly the subset of the directory's filesystem children that are present
in the store (`hasFile` holds), each mapped to its name and id. -/
theorem c4_directory_listing (md : MetaData)
    (fs : String → Option (List String)) (canOpen : String → Bool)
    (url idStr p : String) (e : FileEntry) (names : List String)
    (hsegs : parsePath url = [idStr])
    (hp : md.getPathFromId idStr = some p)
    (he : md.getData p = some e)
    (hdir : e.type = "dir")
    (hfs : fs e.path = some names)
    (hcons : ∀ n ∈ names, md.hasFile (pathJoin e.path n) = true →
      (md.getData (pathJoin e.path n)).isSome = true) :
    (rootHandler md fs canOpen url).response.statusCode = 200 ∧
    (rootHandler md fs canOpen url).response.contentType =
      some "application/json" ∧
    (rootHandler md fs canOpen url).response.body =
      some (.json (.obj
        [("id", .str idStr),
         ("children", .arr
           (((names.map (fun n => pathJoin e.path n)).filter
               (fun c => md.hasFile c)).map (childEntryJson md)))])) := by
  have hcons2 : ∀ c ∈ names.map (fun n => pathJoin e.path n),
      md.hasFile c = true → (md.getData c).isSome = true := by
    intro c hc hf
    obtain ⟨n, hn, rfl⟩ := List.mem_map.mp hc
    exact hcons n hn hf
  have hval : validateRequest md [idStr] = none := by
    simp [validateRequest, hp]
  have hlist := buildListing_ok md (names.map fun n => pathJoin e.path n) hcons2
  have hmap :
      (((names.map fun n => pathJoin e.path n).filter
          (fun c => md.hasFile c)).map
        (fun c =>
          match md.getData c with
          | some d => ChildItem.mk d.name d.id
          | none => ChildItem.mk "" "")).map ChildItem.toJVal =
      ((names.map fun n => pathJoin e.path n).filter
          (fun c => md.hasFile c)).map (childEntryJson md) := by
    rw [List.map_map]
    apply List.map_congr_left
    intro c hc
    have hcf := List.mem_filter.mp hc
    have hs := hcons2 c hcf.1 (by simpa using hcf.2)
    cases hd2 : md.getData c with
    | none =>
      rw [hd2] at hs
      simp at hs
    | some d => simp [childEntryJson, ChildItem.toJVal, hd2]
  refine ⟨?_, ?_, ?_⟩
  · simp [rootHandler, hsegs, hval, handleDispatch, fileRequestHandler,
      hp, he, hdir, hfs, hlist]
  · simp [rootHandler, hsegs, hval, handleDispatch, fileRequestHandler,
      hp, he, hdir, hfs, hlist]
  · simp [rootHandler, hsegs, hval, handleDispatch, fileRequestHandler,
      hp, he, hdir, hfs, hlist, hmap]

/-- Witness for C4 on the fixture directory: of its two filesystem
children, only the shared one appears in the listing. -/
theorem c4_witness :
    (rootHandler mdEx fsEx canOpenEx "/dir1").response.statusCode = 200 ∧
    (rootHandler mdEx fsEx canOpenEx "/dir1").response.contentType =
      some "application/json" ∧
    (rootHandler mdEx fsEx canOpenEx "/dir1").response.body =
      some (.json (.obj
        [("id", .str "dir1"),
         ("children", .arr
           (((["a.txt", "b.txt"].map
                (fun n => pathJoin dirEntryEx.path n)).filter
               (fun c => mdEx.hasFile c)).map (childEntryJson mdEx)))])) :=
  c4_directory_listing mdEx fsEx canOpenEx "/dir1" "dir1" "/shared/d"
    dirEntryEx ["a.txt", "b.txt"] rfl rfl rfl rfl rfl (by decide)

/-- C7 counterexample: when a resolvable file request's `createReadStream`
throws, the file branch has already written its 200 octet-stream head
(http.js lines 149-152), so the requester receives the committed 200, not
the generic server-error status 500 the claim asserts for every unexpected
internal error. -/
theorem c7_counterexample :
    internalErrorDetail mdEx fsEx canOpenNever "/abc" =
      some "Error: createReadStream failed" ∧
    (rootHandler mdEx fsEx canOpenNever "/abc").response.statusCode = 200 ∧
    (rootHandler mdEx fsEx canOpenNever "/abc").response.contentType =
      some "application/octet-stream" :=
  ⟨rfl, rfl, rfl⟩

/-- C7 (amended): whenever handling a request raises an unexpected internal
error (any error without code 404), the full detail is logged and the
response carries no internal detail (no status message and no body); the
status is the generic 500 with no content type exactly when the error was
raised before any response head was committed, while a failing
`createReadStream` leaves the already committed 200 octet-stream head as
the wire response. -/
theorem c7_internal_error_hides_detail (md : MetaData)
    (fs : String → Option (List String)) (canOpen : String → Bool)
    (url d : String)
    (h : internalErrorDetail md fs canOpen url = some d) :
    ("HTTPService: " ++ d) ∈ (rootHandler md fs canOpen url).logs ∧
    (rootHandler md fs canOpen url).response.statusMessage = none ∧
    (rootHandler md fs canOpen url).response.body = none ∧
    (rootHandler md fs canOpen url).response.statusCode =
      (if headersCommittedBeforeError md canOpen url = true then 200
       else 500) ∧
    (rootHandler md fs canOpen url).response.contentType =
      (if headersCommittedBeforeError md canOpen url = true then
        some "application/octet-stream" else none) := by
  unfold internalErrorDetail at h
  cases hv : validateRequest md (parsePath url) with
  | some msg =>
    simp only [hv] at h
    simp at h
  | none =>
    simp only [hv] at h
    unfold handleDispatch at h
    by_cases hlen : (parsePath url).length = 2
    · rw [if_pos hlen] at h
      unfold metaDataRequestHandler at h
      cases hp : md.getPathFromId ((parsePath url).headD "") with
      | none =>
        rw [List.headD_eq_head?] at hp
        simp [hp] at h
      | some p =>
        rw [List.headD_eq_head?] at hp
        simp [hp] at h
    · rw [if_neg hlen] at h
      unfold fileRequestHandler at h
      cases hp : md.getPathFromId ((parsePath url).headD "") with
      | none =>
        rw [List.headD_eq_head?] at hp
        simp [hp] at h
        subst h
        simp [rootHandler, handleDispatch, fileRequestHandler,
          headersCommittedBeforeError, hv, hlen, hp]
      | some p =>
        rw [List.headD_eq_head?] at hp
        cases hd : md.getData p with
        | none =>
          simp [hp, hd] at h
          subst h
          simp [rootHandler, handleDispatch, fileRequestHandler,
            headersCommittedBeforeError, hv, hlen, hp, hd]
        | some e =>
          by_cases ht : e.type = "dir"
          · cases hf : fs e.path with
            | none =>
              simp [hp, hd, ht, hf] at h
              subst h
              simp [rootHandler, handleDispatch, fileRequestHandler,
                headersCommittedBeforeError, hv, hlen, hp, hd, ht, hf]
            | some names =>
              cases hb : (buildListing md
                  (names.map (fun child => pathJoin e.path child))).1 with
              | error u =>
                simp [hp, hd, ht, hf, hb] at h
                subst h
                simp [rootHandler, handleDispatch, fileRequestHandler,
                  headersCommittedBeforeError, hv, hlen, hp, hd, ht, hf, hb]
              | ok listing => simp [hp, hd, ht, hf, hb] at h
          · by_cases hopen : canOpen e.path
            · simp [hp, hd, ht, hopen] at h
            · simp [hp, hd, ht, hopen] at h
              subst h
              simp [rootHandler, handleDispatch, fileRequestHandler,
                headersCommittedBeforeError, hv, hlen, hp, hd, ht, hopen]

/-- Witness for C7's amended statement at an internal error raised before
any head was committed: the bare 500 with the detail logged. -/
theorem c7_witness :
    ("HTTPService: " ++ "TypeError: Cannot read property of undefined") ∈
      (rootHandler mdBad fsEx canOpenEx "/x").logs ∧
    (rootHandler mdBad fsEx canOpenEx "/x").response.statusMessage = none ∧
    (rootHandler mdBad fsEx canOpenEx "/x").response.body = none ∧
    (rootHandler mdBad fsEx canOpenEx "/x").response.statusCode =
      (if headersCommittedBeforeError mdBad canOpenEx "/x" = true then 200
       else 500) ∧
    (rootHandler mdBad fsEx canOpenEx "/x").response.contentType =
      (if headersCommittedBeforeError mdBad canOpenEx "/x" = true then
        some "application/octet-stream" else none) :=
  c7_internal_error_hides_detail mdBad fsEx canOpenEx "/x"
    "TypeError: Cannot read property of undefined" rfl

end MediaHub
